import Mathlib

/-!
Verification development for the NutriScan client: the data model
(`types.ts`), the analysis client and history store
(`services/geminiService.ts`, which also carries the storage service),
and the application state machine (`App.tsx`).  The remote model call,
`JSON.parse`/`JSON.stringify` and `localStorage` are external
collaborators and are modelled as oracles/parameters.
-/

namespace NutriScan

/-- Level enum from `types.ts`: `Low` / `Medium` / `High`. -/
inductive Level
  | low
  | medium
  | high
deriving DecidableEq, Repr

/-- MacroNutrients from `types.ts`: protein, carbs, fat (numbers, grams). -/
structure MacroNutrients where
  protein : Rat
  carbs : Rat
  fat : Rat
deriving DecidableEq, Repr

/-- FoodAnalysis from `types.ts`. -/
structure FoodAnalysis where
  foodName : String
  calories : Rat
  servingSize : String
  giIndex : Rat
  giLevel : Level
  purineContent : String
  purineLevel : Level
  macros : MacroNutrients
  healthTips : List String
  description : String
deriving DecidableEq, Repr

/-- HistoryItem: imported from `types.ts` by both the storage service and
the app.  The copy of `types.ts` present in the tree is a stale revision
that predates the history feature and lacks this interface; the shape is
pinned by its construction site in `saveToHistory`
(`id: Date.now().toString(), timestamp: Date.now(), analysis, imageSrc`). -/
structure HistoryItem where
  id : String
  timestamp : Nat
  analysis : FoodAnalysis
  imageSrc : String
deriving DecidableEq, Repr

/-- Modelled from the spec: the `status` union of the current `AppState`
in `types.ts`.  The `types.ts` in the tree is a stale revision listing
only five statuses (no `history`); the live app (`App.tsx`) switches on
all six, including `history`, so the current declaration is missing from
the tree and is taken from the spec's data model. -/
inductive Status
  | idle
  | camera
  | analyzing
  | result
  | history
  | error
deriving DecidableEq, Repr

/-- Modelled from the spec: the current `AppState` interface of
`types.ts`.  The stale `types.ts` in the tree lacks the `isHistoryView`
field; the live app initialises and updates it
(`useState<AppState>({ status: 'idle', imageSrc: null, analysis: null,
error: null, isHistoryView: false })`), so the field set is taken from
the spec's data model, matching that usage. -/
structure AppState where
  status : Status
  imageSrc : Option String
  analysis : Option FoodAnalysis
  error : Option String
  isHistoryView : Bool
deriving DecidableEq, Repr

/-! ## History store (storage service half of `geminiService.ts`)

`localStorage` holds a single slot under `STORAGE_KEY`; in the
success-path model the slot's JSON round-trips, so the slot is modelled
as the decoded array directly.  A separate fault-injecting model below
covers storage exceptions and corrupt contents. -/

def STORAGE_KEY : String := "nutriscan_history_v1"

def MAX_ITEMS : Nat := 20

/-- The `newItem` literal built inside `saveToHistory`:
`{ id: Date.now().toString(), timestamp: Date.now(), analysis, imageSrc }`.
`now` is the value of `Date.now()` (milliseconds). -/
def mkHistoryItem (now : Nat) (analysis : FoodAnalysis) (imageSrc : String) : HistoryItem :=
  { id := toString now, timestamp := now, analysis := analysis, imageSrc := imageSrc }

/-- The `localStorage` slot at `STORAGE_KEY`, success-path model:
`none` is an absent key, `some l` a stored JSON array decoding to `l`. -/
structure HistoryStore where
  slot : Option (List HistoryItem)
deriving DecidableEq, Repr

def emptyStore : HistoryStore := ⟨none⟩

/-- `getHistory` on the success path: `raw ? JSON.parse(raw) : []`. -/
def getHistory (s : HistoryStore) : List HistoryItem :=
  s.slot.getD []

/-- `saveToHistory` on the success path: prepend the new item to the
existing list, truncate to `MAX_ITEMS`, store the result. -/
def saveToHistory (now : Nat) (analysis : FoodAnalysis) (imageSrc : String)
    (s : HistoryStore) : HistoryStore :=
  let newItem := mkHistoryItem now analysis imageSrc
  let existing := getHistory s
  let updated := (newItem :: existing).take MAX_ITEMS
  ⟨some updated⟩

/-- `clearHistory` on the success path: `localStorage.removeItem(STORAGE_KEY)`. -/
def clearHistory (_s : HistoryStore) : HistoryStore := ⟨none⟩

/-- A finite sequence of `saveToHistory` calls, applied left to right;
each triple is `(Date.now() at that call, analysis, imageSrc)`. -/
def saveSeq (saves : List (Nat × FoodAnalysis × String)) (s : HistoryStore) : HistoryStore :=
  saves.foldl (fun st x => saveToHistory x.1 x.2.1 x.2.2 st) s

/-- Strictly-descending-timestamp ordering of a history list. -/
def sortedDescTimestamp (l : List HistoryItem) : Prop :=
  List.Pairwise (fun a b => b.timestamp < a.timestamp) l

instance (l : List HistoryItem) : Decidable (sortedDescTimestamp l) := by
  unfold sortedDescTimestamp
  infer_instance

/-! ## History store, fault-injecting model

The raw `localStorage` slot is an optional string; `JSON.parse` and
`JSON.stringify` on history arrays are external builtins modelled as
oracles (`parseList s = none` models `JSON.parse(s)` throwing), and each
`localStorage` primitive may throw, as injected by the environment. -/

/-- Raw contents of the `localStorage` slot at `STORAGE_KEY`. -/
structure RawStore where
  raw : Option String
deriving DecidableEq, Repr

/-- Behaviour of the external collaborators for one call: optional
exceptions thrown by each `localStorage` primitive, and the
`JSON.parse` / `JSON.stringify` oracles for history arrays. -/
structure StorageEnv where
  getItemFault : Option String
  setItemFault : Option String
  removeItemFault : Option String
  parseList : String → Option (List HistoryItem)
  stringifyList : List HistoryItem → String

/-- `localStorage.getItem(STORAGE_KEY)`: the slot value, or a thrown
exception as injected by the environment. -/
def getItemCall (env : StorageEnv) (st : RawStore) : Except String (Option String) :=
  match env.getItemFault with
  | some e => .error e
  | none => .ok st.raw

/-- Body of `getHistory` before its `catch`:
`const raw = localStorage.getItem(STORAGE_KEY); return raw ? JSON.parse(raw) : [];`
(`null` and the empty string are both falsy). -/
def getHistoryBody (env : StorageEnv) (st : RawStore) : Except String (List HistoryItem) := do
  let raw ← getItemCall env st
  match raw with
  | none => pure []
  | some r =>
    if r = "" then pure []
    else
      match env.parseList r with
      | none => .error "JSON.parse failed"
      | some items => pure items

/-- `getHistory` as exported: the body wrapped in
`try { ... } catch (e) { console.error(...); return []; }`.  The
`Except` in the result type records any exception that would escape to
the caller. -/
def getHistoryImpl (env : StorageEnv) (st : RawStore) : Except String (List HistoryItem) :=
  match getHistoryBody env st with
  | .ok items => .ok items
  | .error _ => .ok []

/-- The list `getHistory` actually hands back (it never throws). -/
def getHistoryRun (env : StorageEnv) (st : RawStore) : List HistoryItem :=
  match getHistoryImpl env st with
  | .ok items => items
  | .error _ => []

/-- Body of `saveToHistory` before its `catch`: build `newItem`, read
the existing list via `getHistory()` (which swallows its own errors),
prepend, truncate to `MAX_ITEMS`, and `localStorage.setItem` the
stringified result (which may throw). -/
def saveToHistoryBody (env : StorageEnv) (now : Nat) (analysis : FoodAnalysis)
    (imageSrc : String) (st : RawStore) : Except String RawStore :=
  let newItem := mkHistoryItem now analysis imageSrc
  let existing := getHistoryRun env st
  let updated := (newItem :: existing).take MAX_ITEMS
  match env.setItemFault with
  | some e => .error e
  | none => .ok ⟨some (env.stringifyList updated)⟩

/-- `saveToHistory` as exported: the body wrapped in
`try { ... } catch (e) { console.warn(...); }` — on a storage exception
the function returns normally and the slot is left as it was. -/
def saveToHistoryImpl (env : StorageEnv) (now : Nat) (analysis : FoodAnalysis)
    (imageSrc : String) (st : RawStore) : Except String RawStore :=
  match saveToHistoryBody env now analysis imageSrc st with
  | .ok st' => .ok st'
  | .error _ => .ok st

/-- `clearHistory` as exported:
`try { localStorage.removeItem(STORAGE_KEY); } catch (e) { console.error(...); }`. -/
def clearHistoryImpl (env : StorageEnv) (st : RawStore) : Except String RawStore :=
  match env.removeItemFault with
  | some _ => .ok st
  | none => .ok ⟨none⟩

/-- Whether an `Except` result is a normal return (no exception escaped). -/
def isNormalReturn {ε α : Type} : Except ε α → Bool
  | .ok _ => true
  | .error _ => false

/-! ## Analysis client (`analyzeFoodImage` in `geminiService.ts`)

The remote call is an opaque collaborator; `JSON.parse` on the response
text is an external builtin modelled as an oracle producing a JSON value
(`none` models a parse exception). -/

/-- JSON values, as produced by `JSON.parse` on the response text. -/
inductive Json
  | null
  | bool (b : Bool)
  | num (q : Rat)
  | str (s : String)
  | arr (xs : List Json)
  | obj (fields : List (String × Json))

/-- Look up a key in a JSON object's field list (first occurrence). -/
def getField (fields : List (String × Json)) (k : String) : Option Json :=
  (fields.find? (fun f => f.1 = k)).map (fun f => f.2)

def isNumJson : Option Json → Bool
  | some (.num _) => true
  | _ => false

def isStrJson : Option Json → Bool
  | some (.str _) => true
  | _ => false

/-- The `giLevel` / `purineLevel` schema entry: a string constrained to
the enum `["Low", "Medium", "High"]`. -/
def isLevelJson : Option Json → Bool
  | some (.str s) => s = "Low" || s = "Medium" || s = "High"
  | _ => false

/-- The `macros` schema entry: an object with required number properties
`protein`, `carbs`, `fat`. -/
def isMacrosJson : Option Json → Bool
  | some (.obj fields) =>
    isNumJson (getField fields "protein") && isNumJson (getField fields "carbs")
      && isNumJson (getField fields "fat")
  | _ => false

/-- The `healthTips` schema entry: an array of strings. -/
def isStrArrayJson : Option Json → Bool
  | some (.arr xs) => xs.all (fun x => isStrJson (some x))
  | _ => false

/-- The declared `responseSchema` of the remote call: an object whose
required properties have the `FoodAnalysis` field names and types, with
the two Level fields constrained to the enumerated values. -/
def matchesFoodAnalysisSchema : Json → Bool
  | .obj fields =>
    isStrJson (getField fields "foodName") && isNumJson (getField fields "calories")
      && isStrJson (getField fields "servingSize") && isNumJson (getField fields "giIndex")
      && isLevelJson (getField fields "giLevel") && isStrJson (getField fields "purineContent")
      && isLevelJson (getField fields "purineLevel") && isMacrosJson (getField fields "macros")
      && isStrArrayJson (getField fields "healthTips")
      && isStrJson (getField fields "description")
  | _ => false

/-- Outcome of `ai.models.generateContent` for one request: the promise
rejects (a transport/API error, with the thrown error's optional
`message`), or it resolves with a response whose `.text` is the optional
response body. -/
inductive RemoteOutcome
  | transportError (msg : Option String)
  | ok (text : Option String)

/-- The single error condition `analyzeFoodImage` can raise for one
request (its `catch` logs and rethrows, so each propagates unchanged). -/
inductive AnalysisError
  | noAnalysis
  | parseError
  | transport (msg : Option String)

/-- JavaScript `String.prototype.split` with separator `","`, on
character lists: `"".split(',') = [""]`, `"a,".split(',') = ["a",""]`. -/
def splitOnComma : List Char → List (List Char)
  | [] => [[]]
  | c :: rest =>
    let parts := splitOnComma rest
    if c = ',' then [] :: parts
    else
      match parts with
      | [] => [[c]]
      | p :: ps => (c :: p) :: ps

/-- `const cleanBase64 = base64Image.split(',')[1] || base64Image;` —
element index 1 of the split when it exists and is truthy (non-empty),
otherwise the original string. -/
def cleanBase64 (img : List Char) : List Char :=
  match (splitOnComma img).get? 1 with
  | some p => if p = [] then img else p
  | none => img

/-- `cleanBase64` on `String`s. -/
def cleanBase64Str (img : String) : String :=
  ⟨cleanBase64 img.data⟩

/-- The `inlineData.data` payload transmitted to the remote model for a
captured image. -/
def analyzeRequestPayload (img : String) : String :=
  cleanBase64Str img

/-- `analyzeFoodImage`, given the `JSON.parse` oracle and the remote
call's outcome for this request: a rejected promise propagates through
the `catch` (which rethrows); a resolved response with falsy `.text`
(absent or empty) throws `"No analysis generated."`; otherwise the text
is `JSON.parse`d — a parse exception propagates, and a parsed value is
returned as the result via the `as FoodAnalysis` cast, with no
client-side schema validation. -/
def analyzeFoodImage (parse : String → Option Json) (outcome : RemoteOutcome)
    (_img : String) : Except AnalysisError Json :=
  match outcome with
  | .transportError m => .error (.transport m)
  | .ok none => .error .noAnalysis
  | .ok (some s) =>
    if s = "" then .error .noAnalysis
    else
      match parse s with
      | none => .error .parseError
      | some j => .ok j

/-! ## Application state machine (`App.tsx`)

Each handler's `setState(prev => ...)` functional updates become pure
functions on `AppState`; the capture pipeline also threads the history
store (success-path model) since its success branch calls
`saveToHistory`. -/

/-- Resolution of the awaited `analyzeFoodImage(base64Image)` call in
`handleCapture`: a `FoodAnalysis` value, or a thrown error whose
`.message` may be absent or empty. -/
inductive AnalysisOutcome
  | success (analysis : FoodAnalysis)
  | failure (errMsg : Option String)

/-- `error.message || "识别失败，请重试。"` — the generic fallback is used
when `.message` is absent or empty (falsy). -/
def errorDisplayMessage (m : Option String) : String :=
  match m with
  | some s => if s = "" then "识别失败，请重试。" else s
  | none => "识别失败，请重试。"

/-- First `setState` of `handleCapture`: status `analyzing`, `imageSrc`
set to the captured image, other fields spread from the previous state. -/
def captureStart (img : String) (s : AppState) : AppState :=
  { s with status := .analyzing, imageSrc := some img }

/-- Remainder of `handleCapture` once the awaited analysis resolves: on
success, `saveToHistory(analysisData, base64Image)` then a `setState` to
status `result` with the analysis and `isHistoryView: false`; on a
thrown error, a `setState` to status `error` with the displayed message.
`now` is `Date.now()` at the save. -/
def captureFinish (img : String) (outcome : AnalysisOutcome) (s : AppState)
    (store : HistoryStore) (now : Nat) : AppState × HistoryStore :=
  match outcome with
  | .success a =>
    ({ s with status := .result, analysis := some a, isHistoryView := false },
      saveToHistory now a img store)
  | .failure m =>
    ({ s with status := .error, error := some (errorDisplayMessage m) }, store)

/-- The whole `handleCapture` cycle for one captured image. -/
def handleCapture (img : String) (outcome : AnalysisOutcome) (s : AppState)
    (store : HistoryStore) (now : Nat) : AppState × HistoryStore :=
  captureFinish img outcome (captureStart img s) store now

/-- `handleSelectHistoryItem`: a single `setState` to status `result`
with the item's analysis and image and `isHistoryView: true`; the
handler's body contains no history-store call, so the store component
passes through untouched. -/
def handleSelectHistoryItem (item : HistoryItem) (s : AppState)
    (store : HistoryStore) : AppState × HistoryStore :=
  ({ s with
      status := .result
      analysis := some item.analysis
      imageSrc := some item.imageSrc
      isHistoryView := true }, store)

/-- The `onBack` passed to the result view in `renderContent`:
`setState(prev => ({ ...prev, status: 'history' }))`. -/
def resultBack (s : AppState) : AppState :=
  { s with status := .history }

/-- The screen produced by `renderContent` for a given state (props that
the claims inspect are carried as constructor arguments). -/
inductive View
  | idleView
  | cameraView
  | analyzingView (bgImage : Option String)
  | resultView (data : FoodAnalysis) (imageSrc : String) (isHistoryMode : Bool)
  | historyView (items : List HistoryItem)
  | errorView (message : Option String)
deriving DecidableEq, Repr

/-- `renderContent` of `App.tsx`: the switch on `state.status`; in the
`result` case, `if (!state.analysis || !state.imageSrc) return null;`
before rendering `NutrientDisplay`. -/
def renderContent (s : AppState) (historyItems : List HistoryItem) : Option View :=
  match s.status with
  | .idle => some .idleView
  | .camera => some .cameraView
  | .analyzing => some (.analyzingView s.imageSrc)
  | .result =>
    match s.analysis, s.imageSrc with
    | some a, some img => some (.resultView a img s.isHistoryView)
    | _, _ => none
  | .history => some (.historyView historyItems)
  | .error => some (.errorView s.error)

/-! ## Concrete sample values used to instantiate the general theorems -/

/-- The initial state passed to `useState<AppState>` in `App.tsx`. -/
def initialAppState : AppState :=
  { status := .idle, imageSrc := none, analysis := none, error := none,
    isHistoryView := false }

/-- A concrete, schema-shaped analysis value. -/
def sampleAnalysis : FoodAnalysis :=
  { foodName := "白米饭", calories := 200, servingSize := "1碗",
    giIndex := 83, giLevel := .high, purineContent := "18毫克/100克",
    purineLevel := .low, macros := { protein := 4, carbs := 45, fat := 1 },
    healthTips := ["细嚼慢咽", "搭配蔬菜", "控制份量"], description := "主食" }

/-- A storage environment whose write throws (quota exceeded) and whose
`JSON.parse` oracle rejects every raw string (corrupt store). -/
def faultyEnv : StorageEnv :=
  { getItemFault := none, setItemFault := some "QuotaExceededError",
    removeItemFault := none, parseList := fun _ => none,
    stringifyList := fun _ => "[]" }

/-- A `JSON.parse` oracle that parses exactly the text `"{}"`, to the
empty JSON object. -/
def parseObjOnly : String → Option Json := fun s =>
  if s = "{}" then some (.obj []) else none

/-! ## Theorems -/

/-- C1: dispatching a capture moves `AppState` to status `analyzing`
with `imageSrc` set to the captured image; when the analysis call
returns `a`, the state moves to status `result` with `analysis = a` and
`isHistoryView = false` (the image still in place), and the history
store save is triggered with that same image and analysis — afterwards
the newest history entry carries exactly them. -/
theorem capture_success_pipeline (s : AppState) (store : HistoryStore)
    (img : String) (a : FoodAnalysis) (now : Nat) :
    (captureStart img s).status = .analyzing ∧
    (captureStart img s).imageSrc = some img ∧
    (handleCapture img (.success a) s store now).1.status = .result ∧
    (handleCapture img (.success a) s store now).1.analysis = some a ∧
    (handleCapture img (.success a) s store now).1.isHistoryView = false ∧
    (handleCapture img (.success a) s store now).1.imageSrc = some img ∧
    (handleCapture img (.success a) s store now).2 = saveToHistory now a img store ∧
    (getHistory (handleCapture img (.success a) s store now).2).head? =
      some (mkHistoryItem now a img) := by
  refine ⟨rfl, rfl, rfl, rfl, rfl, rfl, rfl, ?_⟩
  simp [handleCapture, captureFinish, captureStart, saveToHistory, getHistory, MAX_ITEMS]

/-- C2: if the analysis call fails, the state moves to status `error`
with a non-empty displayed message — the generic fallback exactly when
the underlying error carries no (or an empty) message — and the history
store component of the cycle is left unchanged (no save on this path). -/
theorem capture_failure_pipeline (s : AppState) (store : HistoryStore)
    (img : String) (m : Option String) (now : Nat) :
    (handleCapture img (.failure m) s store now).1.status = .error ∧
    (handleCapture img (.failure m) s store now).1.error =
      some (errorDisplayMessage m) ∧
    errorDisplayMessage m ≠ "" ∧
    ((m = none ∨ m = some "") → errorDisplayMessage m = "识别失败，请重试。") ∧
    (handleCapture img (.failure m) s store now).2 = store := by
  refine ⟨rfl, rfl, ?_, ?_, rfl⟩
  · match m with
    | none => decide
    | some t =>
      by_cases h : t = ""
      · simp [errorDisplayMessage, h]
      · simp [errorDisplayMessage, h]
  · rintro (rfl | rfl) <;> rfl

/-- Witness for C2 at concrete inputs: an error with no message yields
the generic non-empty message and leaves the store untouched. -/
theorem capture_failure_pipeline_witness :
    errorDisplayMessage none = "识别失败，请重试。" ∧
    (handleCapture "IMG1" (.failure none) initialAppState emptyStore 1).2 = emptyStore :=
  ⟨(capture_failure_pipeline initialAppState emptyStore "IMG1" none 1).2.2.2.1
      (Or.inl rfl),
    (capture_failure_pipeline initialAppState emptyStore "IMG1" none 1).2.2.2.2⟩

/-- C5: selecting a history item moves the state to status `result`
with the item's analysis and image and `isHistoryView = true`, leaves
the history store untouched, and the back navigation from that result
view targets `history`, not `idle`. -/
theorem select_history_item (item : HistoryItem) (s : AppState) (store : HistoryStore) :
    (handleSelectHistoryItem item s store).1.status = .result ∧
    (handleSelectHistoryItem item s store).1.analysis = some item.analysis ∧
    (handleSelectHistoryItem item s store).1.imageSrc = some item.imageSrc ∧
    (handleSelectHistoryItem item s store).1.isHistoryView = true ∧
    (handleSelectHistoryItem item s store).2 = store ∧
    (resultBack (handleSelectHistoryItem item s store).1).status = .history ∧
    (resultBack (handleSelectHistoryItem item s store).1).status ≠ .idle := by
  refine ⟨rfl, rfl, rfl, rfl, rfl, rfl, ?_⟩
  simp [handleSelectHistoryItem, resultBack]

/-- C6: in any state with status `result`, if the analysis or the image
is absent the renderer returns nothing; conversely a rendered result
view pins both to be present (and carries the state's history flag). -/
theorem result_render_requires_both (s : AppState) (items : List HistoryItem) :
    (s.status = .result → (s.analysis = none ∨ s.imageSrc = none) →
      renderContent s items = none) ∧
    (∀ a img b, renderContent s items = some (.resultView a img b) →
      s.analysis = some a ∧ s.imageSrc = some img ∧ s.isHistoryView = b) := by
  obtain ⟨st, isrc, an, er, hv⟩ := s
  constructor
  · intro hst habs
    simp only at hst
    subst hst
    rcases habs with h | h
    · simp only at h
      subst h
      rcases isrc with _ | i <;> rfl
    · simp only at h
      subst h
      rcases an with _ | a' <;> rfl
  · intro a img b h
    cases st <;> rcases an with _ | a' <;> rcases isrc with _ | i <;>
        (simp [renderContent] at h; try simp_all)

/-- Witness for C6 at a concrete input: a `result` state missing its
analysis renders nothing. -/
theorem result_render_requires_both_witness :
    renderContent { initialAppState with status := .result, imageSrc := some "IMG1" } [] =
      none :=
  (result_render_requires_both
      { initialAppState with status := .result, imageSrc := some "IMG1" } []).1
    rfl (Or.inl rfl)

/-- C9: the `AppState` shape — the status ranges over exactly the six
declared values, and a state is exactly its five fields
(status, optional image, optional analysis, optional error, and the
boolean `isHistoryView`). -/
theorem appstate_shape :
    (∀ st : Status, st = .idle ∨ st = .camera ∨ st = .analyzing ∨ st = .result ∨
      st = .history ∨ st = .error) ∧
    List.Nodup [Status.idle, .camera, .analyzing, .result, .history, .error] ∧
    (∀ s : AppState,
      s = { status := s.status, imageSrc := s.imageSrc, analysis := s.analysis,
            error := s.error, isHistoryView := s.isHistoryView }) ∧
    (∀ s : AppState, s.isHistoryView = true ∨ s.isHistoryView = false) := by
  refine ⟨?_, by decide, ?_, ?_⟩
  · intro st
    cases st <;> simp
  · intro s
    rfl
  · intro s
    cases h : s.isHistoryView <;> simp

/-- C10: `clearHistory` is idempotent — a second clear leaves the store
exactly as one clear does, and the listed history is empty after either. -/
theorem clear_idempotent (s : HistoryStore) :
    clearHistory (clearHistory s) = clearHistory s ∧
    getHistory (clearHistory s) = [] ∧
    getHistory (clearHistory (clearHistory s)) = [] :=
  ⟨rfl, rfl, rfl⟩

/-- C7: for every behaviour of the underlying store, `saveToHistory`,
`getHistory` and `clearHistory` all return normally (no exception
escapes); a write failure leaves the slot exactly as it was, and
reading a corrupt slot (one `JSON.parse` rejects) yields the empty
list. -/
theorem storage_failures_swallowed (env : StorageEnv) (now : Nat)
    (a : FoodAnalysis) (img : String) (st : RawStore) :
    isNormalReturn (saveToHistoryImpl env now a img st) = true ∧
    isNormalReturn (getHistoryImpl env st) = true ∧
    isNormalReturn (clearHistoryImpl env st) = true ∧
    (∀ e, env.setItemFault = some e → saveToHistoryImpl env now a img st = .ok st) ∧
    (∀ r, st.raw = some r → r ≠ "" → env.parseList r = none →
      getHistoryImpl env st = .ok []) := by
  refine ⟨?_, ?_, ?_, ?_, ?_⟩
  · cases h : saveToHistoryBody env now a img st <;>
      simp [saveToHistoryImpl, h, isNormalReturn]
  · cases h : getHistoryBody env st <;> simp [getHistoryImpl, h, isNormalReturn]
  · cases h : env.removeItemFault <;> simp [clearHistoryImpl, h, isNormalReturn]
  · intro e he
    simp [saveToHistoryImpl, saveToHistoryBody, he]
  · intro r hraw hne hparse
    cases hg : env.getItemFault <;>
      simp [getHistoryImpl, getHistoryBody, getItemCall, hg, hraw, hne, hparse,
        Bind.bind, Except.bind]

/-- Witness for C7 at concrete inputs: with a quota-exceeded write and a
corrupt slot, the save leaves the slot untouched and the read returns
the empty list, both returning normally. -/
theorem storage_failures_swallowed_witness :
    saveToHistoryImpl faultyEnv 1 sampleAnalysis "IMG1" ⟨some "###"⟩ =
      .ok ⟨some "###"⟩ ∧
    getHistoryImpl faultyEnv ⟨some "###"⟩ = .ok [] :=
  ⟨(storage_failures_swallowed faultyEnv 1 sampleAnalysis "IMG1"
        ⟨some "###"⟩).2.2.2.1 "QuotaExceededError" rfl,
    (storage_failures_swallowed faultyEnv 1 sampleAnalysis "IMG1"
        ⟨some "###"⟩).2.2.2.2 "###" rfl (by decide) rfl⟩

/-- `split` on a comma-free character list yields the singleton part. -/
theorem splitOnComma_of_not_mem (s : List Char) (h : ',' ∉ s) :
    splitOnComma s = [s] := by
  induction s with
  | nil => rfl
  | cons c rest ih =>
    have hc : c ≠ ',' := fun hc => h (hc ▸ List.mem_cons_self c rest)
    have hrest : ',' ∉ rest := fun hr => h (List.mem_cons_of_mem c hr)
    simp [splitOnComma, hc, ih hrest]

/-- `split` at the first comma: a comma-free prefix becomes the first
part, the rest is split recursively. -/
theorem splitOnComma_append (p r : List Char) (hp : ',' ∉ p) :
    splitOnComma (p ++ ',' :: r) = p :: splitOnComma r := by
  induction p with
  | nil => simp [splitOnComma]
  | cons c p' ih =>
    have hc : c ≠ ',' := fun hc => hp (hc ▸ List.mem_cons_self c p')
    have hp' : ',' ∉ p' := fun hr => hp (List.mem_cons_of_mem c hr)
    simp [splitOnComma, hc, ih hp']

/-- C8 counterexample: on the degenerate data URI with an empty payload,
`[1]` of the split is the empty string, which is falsy, so the fallback
transmits the original string — header included. -/
theorem cleanBase64_keeps_header_counterexample :
    cleanBase64Str "data:image/jpeg;base64," = "data:image/jpeg;base64," ∧
    List.isPrefixOf "data:".data (cleanBase64Str "data:image/jpeg;base64,").data = true := by
  constructor
  · rfl
  · decide

/-- C8 amended: for a string made of a comma-free prefix, a comma, and a
non-empty comma-free payload (every well-formed base64 data URI has this
shape), the transmitted payload is exactly the part after the comma —
the header is stripped; a comma-free string is transmitted unchanged. -/
theorem cleanBase64_amended (p r s : List Char) (hp : ',' ∉ p) (hr : ',' ∉ r)
    (hne : r ≠ []) (hs : ',' ∉ s) :
    cleanBase64 (p ++ ',' :: r) = r ∧ cleanBase64 s = s := by
  constructor
  · rw [cleanBase64, splitOnComma_append p r hp, splitOnComma_of_not_mem r hr]
    simp [hne]
  · rw [cleanBase64, splitOnComma_of_not_mem s hs]
    simp

/-- Witness for C8 amended at a concrete input: the standard JPEG data
URI header is stripped from a non-empty payload, and a bare payload is
passed through. -/
theorem cleanBase64_amended_witness :
    cleanBase64 ("data:image/jpeg;base64".data ++ ',' :: "AAAA".data) = "AAAA".data ∧
    cleanBase64 "AAAA".data = "AAAA".data :=
  cleanBase64_amended "data:image/jpeg;base64".data "AAAA".data "AAAA".data
    (by decide) (by decide) (by decide) (by decide)

/-- C4 counterexample: a well-formed but schema-invalid response (the
empty JSON object) is not surfaced as an error — `analyzeFoodImage`
returns it as its result, since the parsed value is only cast, never
validated against the declared schema. -/
theorem analyze_schema_invalid_counterexample :
    analyzeFoodImage parseObjOnly (.ok (some "{}")) "IMG1" = .ok (.obj []) ∧
    matchesFoodAnalysisSchema (.obj []) = false := by
  constructor
  · rfl
  · rfl

/-- C4 amended: `analyzeFoodImage` either returns a value or raises
exactly one error, never both; a transport error, an absent response
text, an empty response text, and malformed JSON each surface as a
single error for that request — while a response text that parses as
JSON is returned as the result with no client-side schema validation. -/
theorem analyze_single_error_amended (parse : String → Option Json) (img : String)
    (m : Option String) (s : String) (j : Json) (hs : s ≠ "") :
    analyzeFoodImage parse (.transportError m) img = .error (.transport m) ∧
    analyzeFoodImage parse (.ok none) img = .error .noAnalysis ∧
    analyzeFoodImage parse (.ok (some "")) img = .error .noAnalysis ∧
    (parse s = none →
      analyzeFoodImage parse (.ok (some s)) img = .error .parseError) ∧
    (parse s = some j → analyzeFoodImage parse (.ok (some s)) img = .ok j) ∧
    (∀ o, (∃ v, analyzeFoodImage parse o img = .ok v) ∨
      (∃ e, analyzeFoodImage parse o img = .error e)) := by
  refine ⟨rfl, rfl, by simp [analyzeFoodImage], ?_, ?_, ?_⟩
  · intro hp
    simp [analyzeFoodImage, hs, hp]
  · intro hp
    simp [analyzeFoodImage, hs, hp]
  · intro o
    match o with
    | .transportError m' => exact Or.inr ⟨.transport m', rfl⟩
    | .ok none => exact Or.inr ⟨.noAnalysis, rfl⟩
    | .ok (some t) =>
      by_cases ht : t = ""
      · exact Or.inr ⟨.noAnalysis, by simp [analyzeFoodImage, ht]⟩
      · cases hp : parse t with
        | none => exact Or.inr ⟨.parseError, by simp [analyzeFoodImage, ht, hp]⟩
        | some v => exact Or.inl ⟨v, by simp [analyzeFoodImage, ht, hp]⟩

/-- Witness for C4 amended at concrete inputs: with an oracle rejecting
the text `"???"`, the request fails with exactly the parse error, and a
transport error propagates as the single error. -/
theorem analyze_single_error_amended_witness :
    analyzeFoodImage parseObjOnly (.ok (some "???")) "IMG1" = .error .parseError ∧
    analyzeFoodImage parseObjOnly (.transportError (some "boom")) "IMG1" =
      .error (.transport (some "boom")) :=
  ⟨(analyze_single_error_amended parseObjOnly "IMG1" none "???" (.obj [])
        (by decide)).2.2.2.1 rfl,
    (analyze_single_error_amended parseObjOnly "IMG1" (some "boom") "???" (.obj [])
        (by decide)).1⟩

/-- One save, observed through `getHistory`: prepend then truncate. -/
theorem getHistory_saveToHistory (t : Nat) (a : FoodAnalysis) (i : String)
    (st : HistoryStore) :
    getHistory (saveToHistory t a i st) =
      (mkHistoryItem t a i :: getHistory st).take MAX_ITEMS := rfl

/-- A save sequence ending in `x` is the earlier sequence followed by
one save of `x`. -/
theorem saveSeq_concat (L : List (Nat × FoodAnalysis × String))
    (x : Nat × FoodAnalysis × String) (st : HistoryStore) :
    saveSeq (L ++ [x]) st = saveToHistory x.1 x.2.1 x.2.2 (saveSeq L st) := by
  simp [saveSeq, List.foldl_append]

/-- Invariant carried along a save sequence: if the saves' clock values
strictly increase and dominate every timestamp already stored, a store
that is descending-sorted and within capacity stays descending-sorted,
and the resulting length is the clamped sum. -/
theorem saveSeq_invariant (L : List (Nat × FoodAnalysis × String)) :
    ∀ st : HistoryStore,
      List.Pairwise (· < ·) (L.map Prod.fst) →
      sortedDescTimestamp (getHistory st) →
      (∀ h ∈ getHistory st, ∀ x ∈ L, h.timestamp < x.1) →
      (getHistory st).length ≤ MAX_ITEMS →
      sortedDescTimestamp (getHistory (saveSeq L st)) ∧
      (getHistory (saveSeq L st)).length =
        min (L.length + (getHistory st).length) MAX_ITEMS := by
  induction L with
  | nil =>
    intro st _ hsort _ hlen
    refine ⟨hsort, ?_⟩
    simp only [saveSeq, List.foldl_nil, List.length_nil, Nat.zero_add]
    omega
  | cons x L ih =>
    intro st hmono hsort hbound hlen
    rw [List.map_cons, List.pairwise_cons] at hmono
    obtain ⟨hx, hmono'⟩ := hmono
    have hstep : saveSeq (x :: L) st = saveSeq L (saveToHistory x.1 x.2.1 x.2.2 st) := rfl
    have hget : getHistory (saveToHistory x.1 x.2.1 x.2.2 st) =
        (mkHistoryItem x.1 x.2.1 x.2.2 :: getHistory st).take MAX_ITEMS := rfl
    have hsort' : sortedDescTimestamp (getHistory (saveToHistory x.1 x.2.1 x.2.2 st)) := by
      rw [hget]
      refine List.Pairwise.sublist (List.take_sublist _ _) ?_
      rw [List.pairwise_cons]
      exact ⟨fun h hm => hbound h hm x (List.mem_cons_self x L), hsort⟩
    have hbound' : ∀ h ∈ getHistory (saveToHistory x.1 x.2.1 x.2.2 st),
        ∀ y ∈ L, h.timestamp < y.1 := by
      intro h hm y hy
      rw [hget] at hm
      rcases List.mem_cons.mp (List.take_subset _ _ hm) with hh | hh
      · rw [hh]
        exact hx y.1 (List.mem_map_of_mem Prod.fst hy)
      · exact hbound h hh y (List.mem_cons_of_mem x hy)
    have hlen' : (getHistory (saveToHistory x.1 x.2.1 x.2.2 st)).length =
        min MAX_ITEMS ((getHistory st).length + 1) := by
      rw [hget, List.length_take, List.length_cons]
    obtain ⟨hs, hl⟩ := ih (saveToHistory x.1 x.2.1 x.2.2 st) hmono' hsort' hbound'
      (by rw [hlen']; omega)
    refine ⟨by rw [hstep]; exact hs, ?_⟩
    rw [hstep, hl, hlen', List.length_cons]
    simp only [MAX_ITEMS] at *
    omega

/-- C3: from an empty store, any save sequence with a strictly
increasing clock yields at most 20 listed entries — exactly
`min` of the number of saves and 20 — ordered strictly by descending
timestamp with the most recently saved entry first; each single save
prepends its entry and truncates to 20, so a save onto a full store of
20 keeps the new entry plus the 19 newest old ones (evicting the
oldest) and still holds exactly 20. -/
theorem history_capacity_invariant (L : List (Nat × FoodAnalysis × String))
    (hmono : List.Pairwise (· < ·) (L.map Prod.fst)) :
    (getHistory (saveSeq L emptyStore)).length ≤ MAX_ITEMS ∧
    (getHistory (saveSeq L emptyStore)).length = min L.length MAX_ITEMS ∧
    sortedDescTimestamp (getHistory (saveSeq L emptyStore)) ∧
    (∀ L' x, L = L' ++ [x] →
      (getHistory (saveSeq L emptyStore)).head? =
        some (mkHistoryItem x.1 x.2.1 x.2.2)) ∧
    (∀ t a i st, getHistory (saveToHistory t a i st) =
      (mkHistoryItem t a i :: getHistory st).take MAX_ITEMS) ∧
    (∀ t a i st, (getHistory st).length = MAX_ITEMS →
      getHistory (saveToHistory t a i st) =
        mkHistoryItem t a i :: (getHistory st).take (MAX_ITEMS - 1) ∧
      (getHistory (saveToHistory t a i st)).length = MAX_ITEMS) := by
  have hempty : getHistory emptyStore = [] := rfl
  obtain ⟨hs, hl⟩ := saveSeq_invariant L emptyStore hmono
    (by rw [hempty]; exact List.Pairwise.nil)
    (by rw [hempty]; intro h hm; exact absurd hm (List.not_mem_nil h))
    (by rw [hempty]; exact Nat.zero_le _)
  refine ⟨?_, ?_, hs, ?_, ?_, ?_⟩
  · rw [hl]
    omega
  · rw [hl, hempty]
    simp
  · intro L' x hLx
    rw [hLx, saveSeq_concat, getHistory_saveToHistory]
    show ((mkHistoryItem x.1 x.2.1 x.2.2 :: _).take (19 + 1)).head? = _
    rw [List.take_succ_cons, List.head?_cons]
  · intro t a i st
    exact getHistory_saveToHistory t a i st
  · intro t a i st hfull
    constructor
    · rw [getHistory_saveToHistory]
      show (mkHistoryItem t a i :: getHistory st).take (19 + 1) =
        mkHistoryItem t a i :: (getHistory st).take 19
      rw [List.take_succ_cons]
    · rw [getHistory_saveToHistory, List.length_take, List.length_cons, hfull]
      omega

/-- Witness for C3 at a concrete input: two saves with clock values
1 and 2 produce a two-entry history, newest first and strictly
descending, and a save onto a listed length-20 store keeps exactly 20. -/
theorem history_capacity_invariant_witness :
    (getHistory (saveSeq [(1, sampleAnalysis, "IMG1"), (2, sampleAnalysis, "IMG2")]
        emptyStore)).length = min 2 MAX_ITEMS ∧
    sortedDescTimestamp (getHistory
      (saveSeq [(1, sampleAnalysis, "IMG1"), (2, sampleAnalysis, "IMG2")] emptyStore)) ∧
    (getHistory (saveSeq [(1, sampleAnalysis, "IMG1"), (2, sampleAnalysis, "IMG2")]
        emptyStore)).head? = some (mkHistoryItem 2 sampleAnalysis "IMG2") :=
  ⟨(history_capacity_invariant [(1, sampleAnalysis, "IMG1"), (2, sampleAnalysis, "IMG2")]
      (by decide)).2.1,
    (history_capacity_invariant [(1, sampleAnalysis, "IMG1"), (2, sampleAnalysis, "IMG2")]
      (by decide)).2.2.1,
    (history_capacity_invariant [(1, sampleAnalysis, "IMG1"), (2, sampleAnalysis, "IMG2")]
      (by decide)).2.2.2.1 [(1, sampleAnalysis, "IMG1")] (2, sampleAnalysis, "IMG2") rfl⟩

end NutriScan
